import Mathlib

/-!
PiOS in-application-programming store (`flight/PiOS/Common/pios_iap.c`)

A shallow embedding of the backup-register accessors of `pios_iap.c` and the
properties of the magic-word handshake, the boot counter and the boot-command
slots.

The register bank is explicit state: every operation takes the bank and gives
back its result together with the bank it leaves behind.
-/

namespace PiosIap

/-! ## Platform -/

/-- The three purposes a backup register serves in `pios_iap.c`: a word of the
magic pair, the boot counter, a boot command. -/
inductive SlotKind
  | magic
  | bootCount
  | bootCmd
deriving DecidableEq, Repr

/-- Modelled from the spec: the register primitives behind `ReadBackupRegister`
and `WriteBackupRegister` (lines 39-47) are platform library functions outside
the source file, and the source fixes no register width. Width in bits of a
slot, from the slot map of the spec: the two magic words and the boot counter
are 16-bit slots, each boot command is a 32-bit slot. These are also the
widths of the variables the source moves the values through (`uint16_t` for
`reg1`, `reg2` and `boot_count`, `uint32_t` for a command `value`). -/
def SlotKind.bits : SlotKind → Nat
  | .magic => 16
  | .bootCount => 16
  | .bootCmd => 32

/-- A backup-register identifier (`BKP_DRx`, `RTC_BKP_DRx`). Identifiers fit
the `uint16_t` element type of `pios_iap_cmd_list`. -/
abbrev Slot := Fin 65536

/-- The backup-register bank: the content of every register. -/
abbrev Bank := Slot → Nat

/-- `ReadBackupRegister(r)` on a slot of kind `k`: the value the slot holds,
which is the content of register `r` at the width of the slot. -/
def ReadBackupRegister (k : SlotKind) (regs : Bank) (r : Slot) : Nat :=
  regs r % 2 ^ k.bits

/-- `WriteBackupRegister(r, data)` on a slot of kind `k`: `data`, at the width
of the slot, is stored in register `r`; no other register changes. -/
def WriteBackupRegister (k : SlotKind) (regs : Bank) (r : Slot) (data : Nat) : Bank :=
  fun s => if s = r then data % 2 ^ k.bits else regs s

/-- The configuration `pios_iap.c` is compiled against: the register behind
each named slot (`MAGIC_REG_1` .. `IAP_CMD3`). The slot names are declared
outside the source file and are parameters here. -/
structure Board where
  MAGIC_REG_1 : Slot
  MAGIC_REG_2 : Slot
  IAP_BOOTCOUNT : Slot
  IAP_CMD1 : Slot
  IAP_CMD2 : Slot
  IAP_CMD3 : Slot

/-- Modelled from the spec: `PIOS_IAP_CMD_COUNT` is a macro of the header, not
of the source file; the spec fixes the number of command slots at three. -/
def PIOS_IAP_CMD_COUNT : Nat := 3

/-- Line 49. -/
def IAP_MAGIC_WORD_1 : Nat := 0x1122

/-- Line 50. -/
def IAP_MAGIC_WORD_2 : Nat := 0xAA55

/-- The table of lines 64-69. -/
def pios_iap_cmd_list (b : Board) : List Slot :=
  [b.IAP_CMD1, b.IAP_CMD2, b.IAP_CMD3]

/-! ## Magic-word handshake -/

/-- Lines 122-138. `reg1` and `reg2` are `uint16_t`, so each register value is
converted to 16 bits before the comparison. The function only reads, the bank
is returned as it was. -/
def PIOS_IAP_CheckRequest (b : Board) (regs : Bank) : Bool × Bank :=
  let reg1 := ReadBackupRegister .magic regs b.MAGIC_REG_1 % 65536
  let reg2 := ReadBackupRegister .magic regs b.MAGIC_REG_2 % 65536
  let retval :=
    if reg1 = IAP_MAGIC_WORD_1 ∧ reg2 = IAP_MAGIC_WORD_2 then true else false
  (retval, regs)

/-- Lines 148-151. -/
def PIOS_IAP_SetRequest1 (b : Board) (regs : Bank) : Bank :=
  WriteBackupRegister .magic regs b.MAGIC_REG_1 IAP_MAGIC_WORD_1

/-- Lines 153-156. -/
def PIOS_IAP_SetRequest2 (b : Board) (regs : Bank) : Bank :=
  WriteBackupRegister .magic regs b.MAGIC_REG_2 IAP_MAGIC_WORD_2

/-- Lines 158-162. -/
def PIOS_IAP_ClearRequest (b : Board) (regs : Bank) : Bank :=
  let regs1 := WriteBackupRegister .magic regs b.MAGIC_REG_1 0
  WriteBackupRegister .magic regs1 b.MAGIC_REG_2 0

/-! ## Boot counter -/

/-- Lines 164-167; the result type is `uint16_t`. -/
def PIOS_IAP_ReadBootCount (b : Board) (regs : Bank) : Nat × Bank :=
  (ReadBackupRegister .bootCount regs b.IAP_BOOTCOUNT % 65536, regs)

/-- Lines 169-172; `boot_count` is a `uint16_t`. -/
def PIOS_IAP_WriteBootCount (b : Board) (regs : Bank) (boot_count : Nat) : Bank :=
  WriteBackupRegister .bootCount regs b.IAP_BOOTCOUNT boot_count

/-! ## Boot-command slots -/

/-- How a call of a command-slot accessor ends. -/
inductive Outcome (α : Type)
  /-- The `else` branch with `number` inside the table: the register named by
  the table was accessed; the result and the bank after the call. -/
  | returned (a : α) (regs : Bank)
  /-- The guard branch: `PIOS_Assert(0)`. Modelled from the spec: the assertion
  is declared outside the source file and is fatal (it does not return). No
  table lookup and no register access happened; the bank is as the call
  found it. -/
  | asserted (regs : Bank)
  /-- The `else` branch with `number` past the end of the table: the lookup
  `pios_iap_cmd_list[number]` reads outside the array, and the register the
  access goes to is not determined by the program. -/
  | overrun

/-- True when the call went through the `else` branch, that is when it did the
table lookup and the backup-register access. -/
def Outcome.accessed {α : Type} : Outcome α → Bool
  | .returned _ _ => true
  | .asserted _ => false
  | .overrun => true

/-- True when the call reached `PIOS_Assert(0)`. -/
def Outcome.isAsserted {α : Type} : Outcome α → Bool
  | .asserted _ => true
  | _ => false

/-- Lines 179-189; `number` is a `uint8_t`, the result a `uint32_t`. -/
def PIOS_IAP_ReadBootCmd (b : Board) (regs : Bank) (number : Nat) : Outcome Nat :=
  if PIOS_IAP_CMD_COUNT < number then
    .asserted regs
  else
    match (pios_iap_cmd_list b)[number]? with
    | some r => .returned (ReadBackupRegister .bootCmd regs r % 2 ^ 32) regs
    | none => .overrun

/-- Lines 196-206; `number` is a `uint8_t`, `value` a `uint32_t`. -/
def PIOS_IAP_WriteBootCmd (b : Board) (regs : Bank) (number : Nat) (value : Nat) :
    Outcome Unit :=
  if PIOS_IAP_CMD_COUNT < number then
    .asserted regs
  else
    match (pios_iap_cmd_list b)[number]? with
    | some r => .returned () (WriteBackupRegister .bootCmd regs r value)
    | none => .overrun

/-! ## Concrete boards and banks -/

/-- The slot layout of an STM32F4xx board: the six slots on `RTC_BKP_DR1` ..
`RTC_BKP_DR6`. -/
def boardF4 : Board :=
  { MAGIC_REG_1 := 1, MAGIC_REG_2 := 2, IAP_BOOTCOUNT := 3,
    IAP_CMD1 := 4, IAP_CMD2 := 5, IAP_CMD3 := 6 }

/-- The slot layout of an STM32F10x board: the six slots on `BKP_DR1` ..
`BKP_DR6` (identifiers 0x04, 0x08, ...). -/
def boardF1 : Board :=
  { MAGIC_REG_1 := 4, MAGIC_REG_2 := 8, IAP_BOOTCOUNT := 12,
    IAP_CMD1 := 16, IAP_CMD2 := 20, IAP_CMD3 := 24 }

/-- The bank with every register at zero. -/
def zeroBank : Bank := fun _ => 0

/-- A bank that is armed on `boardF4`: register 1 holds 0x1122, register 2
holds 0xAA55, every other register zero. -/
def armedBank : Bank := fun s => if s = 1 then 0x1122 else if s = 2 then 0xAA55 else 0

/-- A bank in which only the second magic word is present: register 2 holds
0xAA55, every other register zero. -/
def secondWordBank : Bank := fun s => if s = 2 then 0xAA55 else 0

/-- The value of a call that returned, `none` for the two other endings. -/
def Outcome.result {α : Type} : Outcome α → Option α
  | .returned a _ => some a
  | _ => none

/-- The call sequence `PIOS_IAP_WriteBootCmd(i, v); PIOS_IAP_ReadBootCmd(j)`:
the value the read returns, `none` unless both calls return. -/
def writeThenReadBootCmd (b : Board) (regs : Bank) (i v j : Nat) : Option Nat :=
  match PIOS_IAP_WriteBootCmd b regs i v with
  | .returned _ regs1 => (PIOS_IAP_ReadBootCmd b regs1 j).result
  | _ => none

/-- The bank a call leaves behind: the bank after the access when the call
returned, the unchanged bank when it asserted, `none` on an overrun, where the
register written is not determined. -/
def Outcome.bank {α : Type} : Outcome α → Option Bank
  | .returned _ regs => some regs
  | .asserted regs => some regs
  | .overrun => none

/-- The six named slots sit on six different registers. -/
abbrev Board.slotsDistinct (b : Board) : Prop :=
  [b.MAGIC_REG_1, b.MAGIC_REG_2, b.IAP_BOOTCOUNT, b.IAP_CMD1, b.IAP_CMD2,
    b.IAP_CMD3].Nodup

/-- A bank in which every register holds a different non-zero value: register
`s` holds `s + 7`. -/
def countingBank : Bank := fun s => s.val + 7

/-! ## Register primitives -/

theorem bits_cases (k : SlotKind) : k.bits = 16 ∨ k.bits = 32 := by
  cases k
  · exact Or.inl rfl
  · exact Or.inl rfl
  · exact Or.inr rfl

theorem read_write_same (k : SlotKind) (regs : Bank) (r : Slot) (v : Nat) :
    ReadBackupRegister k (WriteBackupRegister k regs r v) r = v % 2 ^ k.bits := by
  simp [ReadBackupRegister, WriteBackupRegister]

theorem read_write_other (k : SlotKind) (regs : Bank) (r s : Slot) (v : Nat) (h : s ≠ r) :
    ReadBackupRegister k (WriteBackupRegister k regs r v) s = ReadBackupRegister k regs s := by
  simp [ReadBackupRegister, WriteBackupRegister, h]

/-- A 16-bit value passes through a slot of either width unchanged. -/
theorem word_fits (k : SlotKind) (v : Nat) (h : v < 65536) : v % 2 ^ k.bits = v := by
  apply Nat.mod_eq_of_lt
  rcases bits_cases k with e | e <;> rw [e] <;> omega

/-- A slot value fits the `uint32_t` result of `PIOS_IAP_ReadBootCmd`. -/
theorem read_lt (k : SlotKind) (regs : Bank) (r : Slot) :
    ReadBackupRegister k regs r < 2 ^ 32 := by
  unfold ReadBackupRegister
  rcases bits_cases k with e | e <;> rw [e] <;> omega

theorem checkRequest_eq_true_iff (b : Board) (regs : Bank) :
    (PIOS_IAP_CheckRequest b regs).1 = true ↔
      (ReadBackupRegister .magic regs b.MAGIC_REG_1 % 65536 = IAP_MAGIC_WORD_1 ∧
        ReadBackupRegister .magic regs b.MAGIC_REG_2 % 65536 = IAP_MAGIC_WORD_2) := by
  simp [PIOS_IAP_CheckRequest]

/-- A magic slot holds a 16-bit value, which the conversion to the `uint16_t`
of `reg1` and `reg2` leaves as it is. -/
theorem magic_read_uint16 (regs : Bank) (r : Slot) :
    ReadBackupRegister .magic regs r % 65536 = ReadBackupRegister .magic regs r := by
  apply Nat.mod_eq_of_lt
  have h : SlotKind.magic.bits = 16 := rfl
  unfold ReadBackupRegister
  rw [h]
  omega

/-- The table entry of an index in 0..2. -/
theorem cmd_lookup (b : Board) (i : Nat) (h : i ≤ 2) :
    ∃ r, (pios_iap_cmd_list b)[i]? = some r ∧
      (r = b.IAP_CMD1 ∧ i = 0 ∨ r = b.IAP_CMD2 ∧ i = 1 ∨ r = b.IAP_CMD3 ∧ i = 2) := by
  have : i = 0 ∨ i = 1 ∨ i = 2 := by omega
  rcases this with e | e | e <;> subst e <;> simp [pios_iap_cmd_list]

theorem writeBootCmd_eq (b : Board) (regs : Bank) (i v : Nat) (r : Slot) (h : i ≤ 2)
    (hr : (pios_iap_cmd_list b)[i]? = some r) :
    PIOS_IAP_WriteBootCmd b regs i v =
      .returned () (WriteBackupRegister .bootCmd regs r v) := by
  have hg : ¬ PIOS_IAP_CMD_COUNT < i := by unfold PIOS_IAP_CMD_COUNT; omega
  simp only [PIOS_IAP_WriteBootCmd, if_neg hg, hr]

theorem readBootCmd_eq (b : Board) (regs : Bank) (i : Nat) (r : Slot) (h : i ≤ 2)
    (hr : (pios_iap_cmd_list b)[i]? = some r) :
    PIOS_IAP_ReadBootCmd b regs i = .returned (ReadBackupRegister .bootCmd regs r) regs := by
  have hg : ¬ PIOS_IAP_CMD_COUNT < i := by unfold PIOS_IAP_CMD_COUNT; omega
  simp only [PIOS_IAP_ReadBootCmd, if_neg hg, hr, Nat.mod_eq_of_lt (read_lt _ _ _)]

/-! ## Magic-word handshake: claims C1 to C4 -/

/-- C1: for every state of the register bank `PIOS_IAP_CheckRequest` returns
true if and only if the value held in slot `MAGIC_REG_1` equals 0x1122 and the
value held in slot `MAGIC_REG_2` equals 0xAA55; in every other case, a match
of only one of the two words included, it returns false. -/
theorem checkRequest_true_iff_magic_pair (b : Board) (regs : Bank) :
    ((PIOS_IAP_CheckRequest b regs).1 = true ↔
      (ReadBackupRegister .magic regs b.MAGIC_REG_1 = 0x1122 ∧
        ReadBackupRegister .magic regs b.MAGIC_REG_2 = 0xAA55)) ∧
    ((PIOS_IAP_CheckRequest b regs).1 = false ↔
      (ReadBackupRegister .magic regs b.MAGIC_REG_1 ≠ 0x1122 ∨
        ReadBackupRegister .magic regs b.MAGIC_REG_2 ≠ 0xAA55)) := by
  have h := checkRequest_eq_true_iff b regs
  simp only [IAP_MAGIC_WORD_1, IAP_MAGIC_WORD_2, magic_read_uint16] at h
  refine ⟨h, ?_⟩
  rw [Bool.eq_false_iff, Ne, h]
  tauto

/-- C2: from every starting bank, with `MAGIC_REG_1` and `MAGIC_REG_2` distinct
slots, `PIOS_IAP_SetRequest1` then `PIOS_IAP_SetRequest2` then
`PIOS_IAP_CheckRequest` returns true. -/
theorem checkRequest_after_both_phases (b : Board) (regs : Bank)
    (h : b.MAGIC_REG_1 ≠ b.MAGIC_REG_2) :
    (PIOS_IAP_CheckRequest b
      (PIOS_IAP_SetRequest2 b (PIOS_IAP_SetRequest1 b regs))).1 = true := by
  rw [checkRequest_eq_true_iff]
  unfold PIOS_IAP_SetRequest2 PIOS_IAP_SetRequest1
  rw [read_write_other _ _ _ _ _ h, read_write_same, read_write_same,
    word_fits _ _ (by decide), word_fits _ _ (by decide)]
  exact ⟨by decide, by decide⟩

/-- C2 at the STM32F10x board, starting from the zero bank. -/
theorem checkRequest_after_both_phases_witness :
    boardF1.MAGIC_REG_1 ≠ boardF1.MAGIC_REG_2 ∧
      (PIOS_IAP_CheckRequest boardF1
        (PIOS_IAP_SetRequest2 boardF1 (PIOS_IAP_SetRequest1 boardF1 zeroBank))).1 = true :=
  ⟨by decide, checkRequest_after_both_phases boardF1 zeroBank (by decide)⟩

/-- C3: from every starting bank, an armed one included, after
`PIOS_IAP_ClearRequest` both magic-pair slots hold zero and
`PIOS_IAP_CheckRequest` returns false. -/
theorem clearRequest_zeroes_and_disarms (b : Board) (regs : Bank) :
    ReadBackupRegister .magic (PIOS_IAP_ClearRequest b regs) b.MAGIC_REG_1 = 0 ∧
    ReadBackupRegister .magic (PIOS_IAP_ClearRequest b regs) b.MAGIC_REG_2 = 0 ∧
    (PIOS_IAP_CheckRequest b (PIOS_IAP_ClearRequest b regs)).1 = false := by
  have h2 : ReadBackupRegister .magic (PIOS_IAP_ClearRequest b regs) b.MAGIC_REG_2 = 0 := by
    unfold PIOS_IAP_ClearRequest
    simp only [read_write_same, Nat.zero_mod]
  have h1 : ReadBackupRegister .magic (PIOS_IAP_ClearRequest b regs) b.MAGIC_REG_1 = 0 := by
    unfold PIOS_IAP_ClearRequest
    by_cases e : b.MAGIC_REG_1 = b.MAGIC_REG_2
    · rw [e]; simp only [read_write_same, Nat.zero_mod]
    · simp only [read_write_other _ _ _ _ _ e, read_write_same, Nat.zero_mod]
  refine ⟨h1, h2, ?_⟩
  rw [Bool.eq_false_iff, Ne, checkRequest_eq_true_iff, h1]
  intro h
  exact absurd h.1 (by decide)

/-- C4, as stated, fails when the starting bank already holds the second
word: from the bank with 0xAA55 in `MAGIC_REG_2`, `PIOS_IAP_SetRequest1` alone
is followed by a `PIOS_IAP_CheckRequest` that returns true. -/
theorem setRequest1_alone_can_arm :
    ¬ (ReadBackupRegister .magic (PIOS_IAP_SetRequest1 boardF4 secondWordBank)
          boardF4.MAGIC_REG_1 ≠ 0 ∧
        (PIOS_IAP_CheckRequest boardF4
          (PIOS_IAP_SetRequest1 boardF4 secondWordBank)).1 = false) := by
  decide

/-- C4 (amended): from every starting bank whose slot `MAGIC_REG_2` does not
hold 0xAA55 in its low 16 bits (a cleared bank for one), after
`PIOS_IAP_SetRequest1` alone slot `MAGIC_REG_1` is non-zero and
`PIOS_IAP_CheckRequest` returns false. -/
theorem setRequest1_alone_not_armed (b : Board) (regs : Bank)
    (h : ReadBackupRegister .magic regs b.MAGIC_REG_2 % 65536 ≠ IAP_MAGIC_WORD_2) :
    ReadBackupRegister .magic (PIOS_IAP_SetRequest1 b regs) b.MAGIC_REG_1 ≠ 0 ∧
      (PIOS_IAP_CheckRequest b (PIOS_IAP_SetRequest1 b regs)).1 = false := by
  have h1 : ReadBackupRegister .magic (PIOS_IAP_SetRequest1 b regs) b.MAGIC_REG_1
      = IAP_MAGIC_WORD_1 := by
    unfold PIOS_IAP_SetRequest1
    rw [read_write_same, word_fits _ _ (by decide)]
  refine ⟨by rw [h1]; decide, ?_⟩
  rw [Bool.eq_false_iff, Ne, checkRequest_eq_true_iff]
  rintro ⟨-, h2⟩
  by_cases e : b.MAGIC_REG_2 = b.MAGIC_REG_1
  · rw [e, h1] at h2
    exact absurd h2 (by decide)
  · unfold PIOS_IAP_SetRequest1 at h2
    rw [read_write_other _ _ _ _ _ e] at h2
    exact h h2

/-- C4 (amended) at the STM32F4xx board, starting from the zero bank. -/
theorem setRequest1_alone_not_armed_witness :
    ReadBackupRegister .magic zeroBank boardF4.MAGIC_REG_2 % 65536 ≠ IAP_MAGIC_WORD_2 ∧
      (ReadBackupRegister .magic (PIOS_IAP_SetRequest1 boardF4 zeroBank)
          boardF4.MAGIC_REG_1 ≠ 0 ∧
        (PIOS_IAP_CheckRequest boardF4 (PIOS_IAP_SetRequest1 boardF4 zeroBank)).1 = false) :=
  ⟨by decide, setRequest1_alone_not_armed boardF4 zeroBank (by decide)⟩

/-! ## Boot-command slots: claims C5 to C9 -/

/-- C5: for every index i in 0..2, every 32-bit value v and every starting
bank, `PIOS_IAP_WriteBootCmd(i, v)` returns, and the `PIOS_IAP_ReadBootCmd(i)`
that follows returns exactly v. -/
theorem bootCmd_roundtrip (b : Board) (regs : Bank) (i v : Nat)
    (hi : i ≤ 2) (hv : v < 2 ^ 32) :
    writeThenReadBootCmd b regs i v i = some v := by
  obtain ⟨r, hr, -⟩ := cmd_lookup b i hi
  unfold writeThenReadBootCmd
  rw [writeBootCmd_eq b regs i v r hi hr]
  simp only [readBootCmd_eq b _ i r hi hr, Outcome.result, read_write_same,
    SlotKind.bits, Nat.mod_eq_of_lt hv]

/-- C5 on the STM32F10x layout: slot 2 gives 0xDEADBEEF back, both halves. -/
theorem bootCmd_roundtrip_witness :
    (2 ≤ 2 ∧ 0xDEADBEEF < 2 ^ 32) ∧
      writeThenReadBootCmd boardF1 countingBank 2 0xDEADBEEF 2 = some 0xDEADBEEF :=
  ⟨⟨by decide, by decide⟩,
    bootCmd_roundtrip boardF1 countingBank 2 0xDEADBEEF (by decide) (by decide)⟩

/-- C6: with `IAP_CMD1`, `IAP_CMD2`, `IAP_CMD3` pairwise distinct, for all
indices i and j in 0..2 with i different from j, every value v and every
starting bank, `PIOS_IAP_ReadBootCmd(j)` returns a value, and returns the same
value after `PIOS_IAP_WriteBootCmd(i, v)` as before it. -/
theorem bootCmd_slots_independent (b : Board) (regs : Bank) (i j v : Nat)
    (hi : i ≤ 2) (hj : j ≤ 2) (hij : i ≠ j)
    (h12 : b.IAP_CMD1 ≠ b.IAP_CMD2) (h13 : b.IAP_CMD1 ≠ b.IAP_CMD3)
    (h23 : b.IAP_CMD2 ≠ b.IAP_CMD3) :
    ∃ x, (PIOS_IAP_ReadBootCmd b regs j).result = some x ∧
      writeThenReadBootCmd b regs i v j = some x := by
  obtain ⟨r, hr, hr1⟩ := cmd_lookup b i hi
  obtain ⟨s, hs, hs1⟩ := cmd_lookup b j hj
  have hne : s ≠ r := by
    rcases hr1 with ⟨e1, e2⟩ | ⟨e1, e2⟩ | ⟨e1, e2⟩ <;>
      rcases hs1 with ⟨f1, f2⟩ | ⟨f1, f2⟩ | ⟨f1, f2⟩ <;>
      subst e1 f1 <;> first
        | (exfalso; omega)
        | exact h12
        | exact h13
        | exact h23
        | exact h12.symm
        | exact h13.symm
        | exact h23.symm
  refine ⟨ReadBackupRegister .bootCmd regs s, ?_, ?_⟩
  · rw [readBootCmd_eq b regs j s hj hs]; rfl
  · unfold writeThenReadBootCmd
    rw [writeBootCmd_eq b regs i v r hi hr]
    simp only [readBootCmd_eq b _ j s hj hs, Outcome.result,
      read_write_other _ _ _ _ _ hne]

/-- C6 at the STM32F10x board: writing slot 0 leaves the value read from
slot 2. -/
theorem bootCmd_slots_independent_witness :
    (0 ≤ 2 ∧ 2 ≤ 2 ∧ 0 ≠ 2 ∧ boardF1.IAP_CMD1 ≠ boardF1.IAP_CMD2 ∧
      boardF1.IAP_CMD1 ≠ boardF1.IAP_CMD3 ∧ boardF1.IAP_CMD2 ≠ boardF1.IAP_CMD3) ∧
    ∃ x, (PIOS_IAP_ReadBootCmd boardF1 zeroBank 2).result = some x ∧
      writeThenReadBootCmd boardF1 zeroBank 0 0xBEEF 2 = some x :=
  ⟨⟨by decide, by decide, by decide, by decide, by decide, by decide⟩,
    bootCmd_slots_independent boardF1 zeroBank 0 2 0xBEEF (by decide) (by decide)
      (by decide) (by decide) (by decide) (by decide)⟩

/-- C7 at index 3: on every board, for every bank and value,
`PIOS_IAP_WriteBootCmd(3, v)` does not reach `PIOS_Assert(0)`; the guard
`PIOS_IAP_CMD_COUNT < number` is false for 3, the call takes the `else` branch
and its write goes through `pios_iap_cmd_list[3]`, past the three entries of
the table. -/
theorem writeBootCmd_index_three_not_asserted (b : Board) (regs : Bank) (v : Nat) :
    (PIOS_IAP_WriteBootCmd b regs 3 v).isAsserted = false ∧
      (PIOS_IAP_WriteBootCmd b regs 3 v).accessed = true ∧
      (pios_iap_cmd_list b)[3]? = none := by
  simp [PIOS_IAP_WriteBootCmd, PIOS_IAP_CMD_COUNT, pios_iap_cmd_list, Outcome.isAsserted,
    Outcome.accessed]

/-- C8, as stated, fails: at index 4, which violates the guard,
`PIOS_IAP_ReadBootCmd` performs no register access; and at index 3, outside
0..2 but let through by the guard, `PIOS_IAP_WriteBootCmd` does access. At
neither index does the read access while the write does not. -/
theorem readBootCmd_guard_prevents_access :
    ¬ ((PIOS_IAP_ReadBootCmd boardF4 zeroBank 4).accessed = true ∧
        (PIOS_IAP_WriteBootCmd boardF4 zeroBank 4 7).accessed = false) ∧
    ¬ ((PIOS_IAP_ReadBootCmd boardF4 zeroBank 3).accessed = true ∧
        (PIOS_IAP_WriteBootCmd boardF4 zeroBank 3 7).accessed = false) := by
  decide

/-- C8 (amended): `PIOS_IAP_ReadBootCmd` and `PIOS_IAP_WriteBootCmd` treat an
index that violates the guard (`PIOS_IAP_CMD_COUNT < number`) the same way:
each raises the assertion and performs no register access, leaving the bank
as it was. -/
theorem bootCmd_guard_violation_asserts (b : Board) (regs : Bank) (number v : Nat)
    (h : PIOS_IAP_CMD_COUNT < number) :
    PIOS_IAP_ReadBootCmd b regs number = .asserted regs ∧
      PIOS_IAP_WriteBootCmd b regs number v = .asserted regs := by
  simp only [PIOS_IAP_ReadBootCmd, PIOS_IAP_WriteBootCmd, if_pos h, and_self]

/-- C8 (amended) at index 255, the largest `uint8_t`. -/
theorem bootCmd_guard_violation_asserts_witness :
    PIOS_IAP_CMD_COUNT < 255 ∧
      (PIOS_IAP_ReadBootCmd boardF1 secondWordBank 255 = .asserted secondWordBank ∧
        PIOS_IAP_WriteBootCmd boardF1 secondWordBank 255 9 = .asserted secondWordBank) :=
  ⟨by decide, bootCmd_guard_violation_asserts boardF1 secondWordBank 255 9 (by decide)⟩

/-- C9 at index 3: on every board and for every bank, `PIOS_IAP_ReadBootCmd(3)`
reaches the lookup `pios_iap_cmd_list[3]` although 3 is not a position of the
three-entry table. -/
theorem readBootCmd_index_three_past_table (b : Board) (regs : Bank) :
    (PIOS_IAP_ReadBootCmd b regs 3).accessed = true ∧
      (pios_iap_cmd_list b).length = 3 ∧
      (PIOS_IAP_ReadBootCmd b regs 3).result = none := by
  simp [PIOS_IAP_ReadBootCmd, PIOS_IAP_CMD_COUNT, pios_iap_cmd_list, Outcome.accessed,
    Outcome.result]

/-! ## Boot counter: claim C10 -/

/-- C10: for every 16-bit value v and every starting bank,
`PIOS_IAP_WriteBootCount(v)` followed by `PIOS_IAP_ReadBootCount()` returns
v. -/
theorem bootCount_roundtrip (b : Board) (regs : Bank) (v : Nat) (hv : v < 65536) :
    (PIOS_IAP_ReadBootCount b (PIOS_IAP_WriteBootCount b regs v)).1 = v := by
  simp only [PIOS_IAP_ReadBootCount, PIOS_IAP_WriteBootCount, read_write_same,
    word_fits _ _ hv, Nat.mod_eq_of_lt hv]

/-- C10 at the largest 16-bit value, on the STM32F10x board. -/
theorem bootCount_roundtrip_witness :
    65535 < 65536 ∧
      (PIOS_IAP_ReadBootCount boardF1 (PIOS_IAP_WriteBootCount boardF1 zeroBank 65535)).1
        = 65535 :=
  ⟨by decide, bootCount_roundtrip boardF1 zeroBank 65535 (by decide)⟩

/-! ## Frame lemmas -/

/-- A register write leaves the content of every other register. -/
theorem write_other (k : SlotKind) (regs : Bank) (r s : Slot) (v : Nat) (h : s ≠ r) :
    WriteBackupRegister k regs r v s = regs s := by
  simp [WriteBackupRegister, h]

/-- The result of `PIOS_IAP_CheckRequest` depends on the magic pair only. -/
theorem checkRequest_congr (b : Board) (regs regs1 : Bank)
    (h1 : regs1 b.MAGIC_REG_1 = regs b.MAGIC_REG_1)
    (h2 : regs1 b.MAGIC_REG_2 = regs b.MAGIC_REG_2) :
    (PIOS_IAP_CheckRequest b regs1).1 = (PIOS_IAP_CheckRequest b regs).1 := by
  simp only [PIOS_IAP_CheckRequest, ReadBackupRegister, h1, h2]

/-- The result of `PIOS_IAP_ReadBootCount` depends on the counter slot only. -/
theorem readBootCount_congr (b : Board) (regs regs1 : Bank)
    (h : regs1 b.IAP_BOOTCOUNT = regs b.IAP_BOOTCOUNT) :
    (PIOS_IAP_ReadBootCount b regs1).1 = (PIOS_IAP_ReadBootCount b regs).1 := by
  simp only [PIOS_IAP_ReadBootCount, ReadBackupRegister, h]

/-- For an index in 0..2 `PIOS_IAP_ReadBootCmd` returns, and its value depends
on the three command slots only. -/
theorem readBootCmd_congr (b : Board) (regs regs1 : Bank) (i : Nat) (hi : i ≤ 2)
    (h1 : regs1 b.IAP_CMD1 = regs b.IAP_CMD1) (h2 : regs1 b.IAP_CMD2 = regs b.IAP_CMD2)
    (h3 : regs1 b.IAP_CMD3 = regs b.IAP_CMD3) :
    ∃ x, (PIOS_IAP_ReadBootCmd b regs i).result = some x ∧
      (PIOS_IAP_ReadBootCmd b regs1 i).result = some x := by
  obtain ⟨r, hr, hr1⟩ := cmd_lookup b i hi
  refine ⟨ReadBackupRegister .bootCmd regs r, ?_, ?_⟩
  · rw [readBootCmd_eq b regs i r hi hr]; rfl
  · rw [readBootCmd_eq b regs1 i r hi hr]
    have : regs1 r = regs r := by
      rcases hr1 with ⟨e, -⟩ | ⟨e, -⟩ | ⟨e, -⟩ <;> subst e <;> assumption
    simp only [Outcome.result, ReadBackupRegister, this]

/-- What `slotsDistinct` gives about the two magic slots. -/
theorem slotsDistinct_ne (b : Board) (h : b.slotsDistinct) :
    (b.MAGIC_REG_1 ≠ b.MAGIC_REG_2 ∧ b.MAGIC_REG_1 ≠ b.IAP_BOOTCOUNT ∧
      b.MAGIC_REG_1 ≠ b.IAP_CMD1 ∧ b.MAGIC_REG_1 ≠ b.IAP_CMD2 ∧
      b.MAGIC_REG_1 ≠ b.IAP_CMD3) ∧
    (b.MAGIC_REG_2 ≠ b.IAP_BOOTCOUNT ∧ b.MAGIC_REG_2 ≠ b.IAP_CMD1 ∧
      b.MAGIC_REG_2 ≠ b.IAP_CMD2 ∧ b.MAGIC_REG_2 ≠ b.IAP_CMD3) := by
  unfold Board.slotsDistinct at h
  simp only [List.nodup_cons, List.mem_cons, List.mem_singleton, not_or] at h
  tauto

/-! ## Frame and guard properties: claims C11 to C15 -/

/-- C11: `PIOS_IAP_CheckRequest` is non-destructive: for every state the
register bank after the call is the bank before it, so a second call right
after the first returns the same result. -/
theorem checkRequest_non_destructive (b : Board) (regs : Bank) :
    (PIOS_IAP_CheckRequest b regs).2 = regs ∧
      (PIOS_IAP_CheckRequest b (PIOS_IAP_CheckRequest b regs).2).1
        = (PIOS_IAP_CheckRequest b regs).1 :=
  ⟨rfl, rfl⟩

/-- C12: with the six slots pairwise distinct, for every state, every count c,
every index i in 0..2 and every value v, `PIOS_IAP_CheckRequest` returns the
same result after `PIOS_IAP_WriteBootCount(c)` as before it, and
`PIOS_IAP_WriteBootCmd(i, v)` returns and leaves a bank on which
`PIOS_IAP_CheckRequest` returns the same result as before. -/
theorem bookkeeping_writes_keep_request (b : Board) (regs : Bank) (c i v : Nat)
    (hd : b.slotsDistinct) (hi : i ≤ 2) :
    (PIOS_IAP_CheckRequest b (PIOS_IAP_WriteBootCount b regs c)).1
        = (PIOS_IAP_CheckRequest b regs).1 ∧
      ∃ regs1, PIOS_IAP_WriteBootCmd b regs i v = .returned () regs1 ∧
        (PIOS_IAP_CheckRequest b regs1).1 = (PIOS_IAP_CheckRequest b regs).1 := by
  obtain ⟨⟨-, h1c, h11, h12, h13⟩, h2c, h21, h22, h23⟩ := slotsDistinct_ne b hd
  constructor
  · exact checkRequest_congr b regs _ (write_other _ _ _ _ _ h1c)
      (write_other _ _ _ _ _ h2c)
  · obtain ⟨r, hr, hr1⟩ := cmd_lookup b i hi
    refine ⟨_, writeBootCmd_eq b regs i v r hi hr, ?_⟩
    rcases hr1 with ⟨e, -⟩ | ⟨e, -⟩ | ⟨e, -⟩ <;> subst e
    · exact checkRequest_congr b regs _ (write_other _ _ _ _ _ h11)
        (write_other _ _ _ _ _ h21)
    · exact checkRequest_congr b regs _ (write_other _ _ _ _ _ h12)
        (write_other _ _ _ _ _ h22)
    · exact checkRequest_congr b regs _ (write_other _ _ _ _ _ h13)
        (write_other _ _ _ _ _ h23)

/-- C12 on the STM32F4xx board from an armed bank: writing the magic words
themselves as count and as command 1 leaves the request as it was. -/
theorem bookkeeping_writes_keep_request_witness :
    (boardF4.slotsDistinct ∧ 1 ≤ 2) ∧
    ((PIOS_IAP_CheckRequest boardF4
          (PIOS_IAP_WriteBootCount boardF4 armedBank 0x1122)).1
        = (PIOS_IAP_CheckRequest boardF4 armedBank).1 ∧
      ∃ regs1, PIOS_IAP_WriteBootCmd boardF4 armedBank 1 0xAA55 = .returned () regs1 ∧
        (PIOS_IAP_CheckRequest boardF4 regs1).1
          = (PIOS_IAP_CheckRequest boardF4 armedBank).1) :=
  ⟨⟨by decide, by decide⟩,
    bookkeeping_writes_keep_request boardF4 armedBank 0x1122 1 0xAA55
      (by decide) (by decide)⟩

/-- Reads of the counter and of the command slots on a bank that differs from
`regs` on the magic pair at most. -/
theorem bookkeeping_reads_congr (b : Board) (regs regs1 : Bank) (hd : b.slotsDistinct)
    (h : ∀ s, s ≠ b.MAGIC_REG_1 → s ≠ b.MAGIC_REG_2 → regs1 s = regs s) :
    (PIOS_IAP_ReadBootCount b regs1).1 = (PIOS_IAP_ReadBootCount b regs).1 ∧
      ∀ i, i ≤ 2 → ∃ x, (PIOS_IAP_ReadBootCmd b regs i).result = some x ∧
        (PIOS_IAP_ReadBootCmd b regs1 i).result = some x := by
  obtain ⟨⟨-, h1c, h11, h12, h13⟩, h2c, h21, h22, h23⟩ := slotsDistinct_ne b hd
  refine ⟨readBootCount_congr b regs regs1 (h _ h1c.symm h2c.symm), fun i hi => ?_⟩
  exact readBootCmd_congr b regs regs1 i hi (h _ h11.symm h21.symm)
    (h _ h12.symm h22.symm) (h _ h13.symm h23.symm)

/-- C13: `PIOS_IAP_SetRequest1` changes at most slot `MAGIC_REG_1`,
`PIOS_IAP_SetRequest2` at most slot `MAGIC_REG_2`, `PIOS_IAP_ClearRequest` at
most those two; so, with the six slots pairwise distinct, after any of the
three `PIOS_IAP_ReadBootCount` returns the value it returned before, and for
every i in 0..2 `PIOS_IAP_ReadBootCmd(i)` returns, with the value it returned
before. -/
theorem magic_ops_touch_magic_pair_only (b : Board) (regs : Bank) (hd : b.slotsDistinct) :
    (∀ s, s ≠ b.MAGIC_REG_1 → PIOS_IAP_SetRequest1 b regs s = regs s) ∧
    (∀ s, s ≠ b.MAGIC_REG_2 → PIOS_IAP_SetRequest2 b regs s = regs s) ∧
    (∀ s, s ≠ b.MAGIC_REG_1 → s ≠ b.MAGIC_REG_2 →
      PIOS_IAP_ClearRequest b regs s = regs s) ∧
    ∀ op ∈ [PIOS_IAP_SetRequest1 b, PIOS_IAP_SetRequest2 b, PIOS_IAP_ClearRequest b],
      (PIOS_IAP_ReadBootCount b (op regs)).1 = (PIOS_IAP_ReadBootCount b regs).1 ∧
        ∀ i, i ≤ 2 → ∃ x, (PIOS_IAP_ReadBootCmd b regs i).result = some x ∧
          (PIOS_IAP_ReadBootCmd b (op regs) i).result = some x := by
  have f1 : ∀ s, s ≠ b.MAGIC_REG_1 → PIOS_IAP_SetRequest1 b regs s = regs s :=
    fun s hs => write_other _ _ _ _ _ hs
  have f2 : ∀ s, s ≠ b.MAGIC_REG_2 → PIOS_IAP_SetRequest2 b regs s = regs s :=
    fun s hs => write_other _ _ _ _ _ hs
  have f3 : ∀ s, s ≠ b.MAGIC_REG_1 → s ≠ b.MAGIC_REG_2 →
      PIOS_IAP_ClearRequest b regs s = regs s := by
    intro s hs1 hs2
    unfold PIOS_IAP_ClearRequest
    rw [write_other _ _ _ _ _ hs2, write_other _ _ _ _ _ hs1]
  refine ⟨f1, f2, f3, ?_⟩
  intro op hop
  simp only [List.mem_cons, List.mem_singleton, List.not_mem_nil, or_false] at hop
  rcases hop with e | e | e <;> subst e
  · exact bookkeeping_reads_congr b regs _ hd (fun s hs1 _ => f1 s hs1)
  · exact bookkeeping_reads_congr b regs _ hd (fun s _ hs2 => f2 s hs2)
  · exact bookkeeping_reads_congr b regs _ hd f3

/-- C13 on the STM32F10x board, from the bank in which register `s` holds
`s + 7`. -/
theorem magic_ops_touch_magic_pair_only_witness :
    boardF1.slotsDistinct ∧
    ((∀ s, s ≠ boardF1.MAGIC_REG_1 →
      PIOS_IAP_SetRequest1 boardF1 countingBank s = countingBank s) ∧
    (∀ s, s ≠ boardF1.MAGIC_REG_2 →
      PIOS_IAP_SetRequest2 boardF1 countingBank s = countingBank s) ∧
    (∀ s, s ≠ boardF1.MAGIC_REG_1 → s ≠ boardF1.MAGIC_REG_2 →
      PIOS_IAP_ClearRequest boardF1 countingBank s = countingBank s) ∧
    ∀ op ∈ [PIOS_IAP_SetRequest1 boardF1, PIOS_IAP_SetRequest2 boardF1,
        PIOS_IAP_ClearRequest boardF1],
      (PIOS_IAP_ReadBootCount boardF1 (op countingBank)).1
          = (PIOS_IAP_ReadBootCount boardF1 countingBank).1 ∧
        ∀ i, i ≤ 2 → ∃ x, (PIOS_IAP_ReadBootCmd boardF1 countingBank i).result = some x ∧
          (PIOS_IAP_ReadBootCmd boardF1 (op countingBank) i).result = some x) :=
  ⟨by decide, magic_ops_touch_magic_pair_only boardF1 countingBank (by decide)⟩


/-- C14: for every index `number`, every 8-bit one included,
`PIOS_IAP_ReadBootCmd` and `PIOS_IAP_WriteBootCmd` each reach `PIOS_Assert(0)`
if and only if `PIOS_IAP_CMD_COUNT < number`, so both accept the same indices;
otherwise each goes on to the access through `pios_iap_cmd_list[number]`: the
read returns the content of the register the table gives at `number`, the
write stores `v` in that register. -/
theorem bootCmd_accessors_same_guard (b : Board) (regs : Bank) (number v : Nat) :
    ((PIOS_IAP_ReadBootCmd b regs number).isAsserted = true ↔ PIOS_IAP_CMD_COUNT < number) ∧
    ((PIOS_IAP_WriteBootCmd b regs number v).isAsserted = true ↔
      PIOS_IAP_CMD_COUNT < number) ∧
    ((PIOS_IAP_ReadBootCmd b regs number).isAsserted
      = (PIOS_IAP_WriteBootCmd b regs number v).isAsserted) ∧
    ((PIOS_IAP_ReadBootCmd b regs number).accessed
      = !(PIOS_IAP_ReadBootCmd b regs number).isAsserted) ∧
    ((PIOS_IAP_WriteBootCmd b regs number v).accessed
      = !(PIOS_IAP_WriteBootCmd b regs number v).isAsserted) ∧
    ((PIOS_IAP_ReadBootCmd b regs number).result =
      if PIOS_IAP_CMD_COUNT < number then none
      else ((pios_iap_cmd_list b)[number]?).map (ReadBackupRegister .bootCmd regs)) ∧
    ((PIOS_IAP_WriteBootCmd b regs number v).bank =
      if PIOS_IAP_CMD_COUNT < number then some regs
      else ((pios_iap_cmd_list b)[number]?).map
        (fun r => WriteBackupRegister .bootCmd regs r v)) := by
  by_cases h : PIOS_IAP_CMD_COUNT < number
  · simp [PIOS_IAP_ReadBootCmd, PIOS_IAP_WriteBootCmd, h, Outcome.isAsserted,
      Outcome.accessed, Outcome.result, Outcome.bank]
  · simp only [PIOS_IAP_ReadBootCmd, PIOS_IAP_WriteBootCmd, if_neg h]
    cases (pios_iap_cmd_list b)[number]? with
    | none => simp [h, Outcome.isAsserted, Outcome.accessed, Outcome.result, Outcome.bank]
    | some r =>
      simp [h, Outcome.isAsserted, Outcome.accessed, Outcome.result, Outcome.bank]
      exact read_lt .bootCmd regs r

/-- C15: with `MAGIC_REG_1` and `MAGIC_REG_2` distinct, from every starting
bank `PIOS_IAP_SetRequest1` then `PIOS_IAP_SetRequest2` leaves the same bank
as `PIOS_IAP_SetRequest2` then `PIOS_IAP_SetRequest1`, and the request is
armed after the second order as well. -/
theorem setRequest_phases_commute (b : Board) (regs : Bank) (h : b.MAGIC_REG_1 ≠ b.MAGIC_REG_2) :
    PIOS_IAP_SetRequest2 b (PIOS_IAP_SetRequest1 b regs)
        = PIOS_IAP_SetRequest1 b (PIOS_IAP_SetRequest2 b regs) ∧
      (PIOS_IAP_CheckRequest b (PIOS_IAP_SetRequest1 b (PIOS_IAP_SetRequest2 b regs))).1
        = true := by
  constructor
  · funext s
    simp only [PIOS_IAP_SetRequest1, PIOS_IAP_SetRequest2, WriteBackupRegister]
    by_cases e1 : s = b.MAGIC_REG_1
    · subst e1; simp [h]
    · simp [e1]
  · rw [checkRequest_eq_true_iff]
    unfold PIOS_IAP_SetRequest2 PIOS_IAP_SetRequest1
    rw [read_write_same, read_write_other _ _ _ _ _ h.symm, read_write_same,
      word_fits _ _ (by decide), word_fits _ _ (by decide)]
    exact ⟨by decide, by decide⟩

/-- C15 on the STM32F4xx board, from the bank in which register `s` holds
`s + 7`. -/
theorem setRequest_phases_commute_witness :
    boardF4.MAGIC_REG_1 ≠ boardF4.MAGIC_REG_2 ∧
    (PIOS_IAP_SetRequest2 boardF4 (PIOS_IAP_SetRequest1 boardF4 countingBank)
        = PIOS_IAP_SetRequest1 boardF4 (PIOS_IAP_SetRequest2 boardF4 countingBank) ∧
      (PIOS_IAP_CheckRequest boardF4
        (PIOS_IAP_SetRequest1 boardF4 (PIOS_IAP_SetRequest2 boardF4 countingBank))).1 = true) :=
  ⟨by decide, setRequest_phases_commute boardF4 countingBank (by decide)⟩

end PiosIap
